import Mathlib

/-!
Verification of the ai-song-writer service core (Go) against its
natural-language specification.

The development shallowly embeds the Go code of `main.go`:
  * the section parser `parseLyrics` and its helpers (Go `strings`
    functions are modelled character-exactly on ASCII / Latin-1 input,
    which is the only input class the claims exercise);
  * the structure-default step of the `generateLyrics` handler;
  * the OAuth token cache: `requestNewToken` and `GetAccessToken`,
    with wall-clock time modelled as an integer number of seconds and
    the network modelled as an explicit one-shot result value;
  * both variants of `sanitizeForLogging` (the direct-API-key variant
    and the gateway-OAuth variant).
Maps (`map[string]string`) are modelled as association lists with
overwrite-on-insert, which preserves lookup, key-membership and
emptiness, the only observations the theorems make.
-/

/-- Whitespace predicate of Go's `unicode.IsSpace` restricted to the
Latin-1 range (the full Unicode table coincides with this on every
character appearing in the claims). -/
def goIsSpace (c : Char) : Bool :=
  c = ' ' || c = '\t' || c = '\n' || c = '\x0b' || c = '\x0c' || c = '\r' ||
    c.val = 0x85 || c.val = 0xA0

/-- Trim `goIsSpace` characters from both ends of a character list
(Go `strings.TrimSpace`). -/
def trimSpaceL (s : List Char) : List Char :=
  ((s.dropWhile goIsSpace).reverse.dropWhile goIsSpace).reverse

/-- Go `strings.TrimSpace`. -/
def goTrimSpace (s : String) : String :=
  ⟨trimSpaceL s.data⟩

/-- Does `pre` occur at the start of `s`? (Go `strings.HasPrefix`.) -/
def startsWithL : List Char → List Char → Bool
  | _, [] => true
  | [], _ :: _ => false
  | a :: as, b :: bs => a = b && startsWithL as bs

/-- Go `strings.HasPrefix` on strings. -/
def goStartsWith (s p : String) : Bool :=
  startsWithL s.data p.data

/-- Go `strings.HasSuffix` on strings. -/
def goEndsWith (s p : String) : Bool :=
  startsWithL s.data.reverse p.data.reverse

/-- Does `needle` occur anywhere inside `hay`? (Go `strings.Contains`.) -/
def containsL : List Char → List Char → Bool
  | [], needle => needle.isEmpty
  | c :: cs, needle => startsWithL (c :: cs) needle || containsL cs needle

/-- Go `strings.Contains` on strings. -/
def goContains (s sub : String) : Bool :=
  containsL s.data sub.data

/-- ASCII lower-casing of one character; Go `strings.ToLower` agrees with
this on ASCII input. -/
def goLowerChar (c : Char) : Char :=
  if 'A' ≤ c ∧ c ≤ 'Z' then Char.ofNat (c.toNat + 32) else c

/-- Go `strings.ToLower` (ASCII). -/
def goToLower (s : String) : String :=
  ⟨s.data.map goLowerChar⟩

/-- Trim every leading and trailing character belonging to `cut`
(Go `strings.Trim(s, cutset)`). -/
def trimCutsetL (cut s : List Char) : List Char :=
  ((s.dropWhile (cut.contains ·)).reverse.dropWhile (cut.contains ·)).reverse

/-- Go `strings.Trim(s, cutset)` on strings. -/
def goTrimCutset (s cut : String) : String :=
  ⟨trimCutsetL cut.data s.data⟩

/-- Go `strings.TrimPrefix`: drop `p` from the front of `s` when present,
otherwise return `s` unchanged. -/
def goTrimLeading (s p : String) : String :=
  if startsWithL s.data p.data then ⟨s.data.drop p.data.length⟩ else s

/-- Split a character list at every newline (Go `strings.Split(s, "\n")`:
`n` separators yield `n + 1` pieces, the empty input yields `[""]`). -/
def splitNlL : List Char → List (List Char)
  | [] => [[]]
  | c :: cs =>
    if c = '\n' then [] :: splitNlL cs
    else
      match splitNlL cs with
      | [] => [[c]]
      | l :: ls => (c :: l) :: ls

/-- Go `strings.Split(s, "\n")` on strings. -/
def goSplitNl (s : String) : List String :=
  (splitNlL s.data).map (fun l => ⟨l⟩)

/-- Go `strings.Join(xs, "\n")`. -/
def joinNl : List String → String
  | [] => ""
  | [x] => x
  | x :: y :: xs => x ++ "\n" ++ joinNl (y :: xs)

/-- Assignment `m[k] = v` on a Go `map[string]string`, modelled on an
association list: overwrite the existing binding for `k`, or append a new
one. -/
def mapSet (m : List (String × String)) (k v : String) :
    List (String × String) :=
  if (m.map Prod.fst).contains k then
    m.map (fun p => if p.1 = k then (k, v) else p)
  else
    m ++ [(k, v)]

/-- The `GeneratedLyrics` struct of `main.go`: a title and the
section-name → section-text mapping. -/
structure GeneratedLyrics where
  title : String
  Structure : List (String × String)
  deriving Repr, DecidableEq

/-- The loop state of `parseLyrics`: the mapping built so far, the name of
the currently open section (`""` = none), the content lines accumulated
for it, and the title seen so far. -/
structure PState where
  Structure : List (String × String)
  currentSection : String
  currentContent : List String
  title : String
  deriving Repr, DecidableEq

/-- The initial state of the `parseLyrics` loop: empty mapping, no open
section, default title `"Untitled Song"`. -/
def initState : PState :=
  ⟨[], "", [], "Untitled Song"⟩

/-- A line whose trimmed form starts with `[` and ends with `]`, i.e. a
line taking the header branch of the `parseLyrics` loop. -/
def isHeaderLine (l : String) : Bool :=
  goStartsWith (goTrimSpace l) "[" && goEndsWith (goTrimSpace l) "]"

/-- The `sectionName` computed by the `parseLyrics` loop for a header
line: the lowercased bracket interior. -/
def headerPayload (l : String) : String :=
  goToLower (goTrimCutset (goTrimSpace l) "[]")

/-- A header line whose payload begins with `title:`. -/
def isTitleHeaderLine (l : String) : Bool :=
  isHeaderLine l && goStartsWith (headerPayload l) "title:"

/-- The title the `parseLyrics` loop stores for a title header line:
the payload with the `title:` prefix removed, trimmed. -/
def titleFromLine (l : String) : String :=
  goTrimSpace (goTrimLeading (headerPayload l) "title:")

/-- The "save previous section" step of `parseLyrics`, run both on
encountering a header and at end of input: commit the open section when
it has accumulated at least one content line. -/
def commitOpen (s : PState) : PState :=
  if s.currentSection ≠ "" ∧ s.currentContent.length > 0 then
    { s with Structure :=
        mapSet s.Structure s.currentSection (joinNl s.currentContent) }
  else s

/-- One iteration of the `parseLyrics` loop of `main.go` on one line:
trim; skip blanks; on a `[...]` header commit the open section, then
either record a `title:` payload (closing any open section) or open the
named section with an empty accumulator; otherwise append the trimmed
line to the open section's content, if any section is open. -/
def stepLine (s : PState) (line : String) : PState :=
  if goTrimSpace line = "" then s
  else if goStartsWith (goTrimSpace line) "[" && goEndsWith (goTrimSpace line) "]" then
    if goStartsWith (headerPayload line) "title:" then
      { commitOpen s with title := titleFromLine line, currentSection := "" }
    else
      { commitOpen s with currentSection := headerPayload line,
                          currentContent := [] }
  else if s.currentSection ≠ "" then
    { s with currentContent := s.currentContent ++ [goTrimSpace line] }
  else s

/-- The function `parseLyrics` of `main.go`: split on newlines, run the line loop,
commit the last section, and fall back to storing the whole raw text
under `"verse1"` when the mapping came out empty. -/
def parseLyrics (text : String) : GeneratedLyrics :=
  let s := commitOpen ((goSplitNl text).foldl stepLine initState)
  { title := s.title
    Structure := if s.Structure.isEmpty then [("verse1", text)] else s.Structure }

/-- The `SongStructure` struct of `main.go` (verses is a Go `int`). -/
structure SongStructure where
  verses : Int
  chorus : Bool
  bridge : Bool
  deriving Repr, DecidableEq

/-- The structure-default step of the `generateLyrics` handler: set
verses to 2 when it is 0, and force chorus to true when it is false. -/
def applyStructureDefaults (s : SongStructure) : SongStructure :=
  let s := if s.verses = 0 then { s with verses := 2 } else s
  if !s.chorus then { s with chorus := true } else s

/-- The `OAuthTokenResponse` struct: the parsed JSON body returned by the
token endpoint. -/
structure OAuthTokenResponse where
  accessToken : String
  tokenType : String
  expiresIn : Int
  scope : String
  error : String
  errorDesc : String
  deriving Repr, DecidableEq

/-- The outcome of the single HTTP POST made by `requestNewToken`:
either the network request fails, or a response arrives with a status
code and a body that either parses as JSON (`some`) or does not
(`none`). -/
inductive NetResult where
  | netFail
  | response (status : Int) (body : Option OAuthTokenResponse)
  deriving Repr, DecidableEq

/-- The token-holding fields of `OAuthClient`: the cached access token
(`""` = none) and its expiry, as seconds on an integer wall clock. -/
structure OAuthClientState where
  accessToken : String
  expiresAt : Int
  deriving Repr, DecidableEq

/-- The function `requestNewToken` of `main.go`, over the one-shot network model:
fail on network error, unparseable body, non-empty `error` field,
non-200 status, or empty `access_token` (in the code's order); otherwise
store the token with expiry `now + expiresIn` seconds, where a
non-positive `expires_in` is replaced by the 3600-second default. -/
def requestNewToken (now : Int) (net : NetResult) :
    Except String (String × OAuthClientState) :=
  match net with
  | .netFail => .error "OAuth token request failed"
  | .response status body =>
    match body with
    | none => .error "failed to parse token response"
    | some tokenResp =>
      if tokenResp.error ≠ "" then
        .error ("OAuth error: " ++ tokenResp.error ++ " - " ++ tokenResp.errorDesc)
      else if status ≠ 200 then
        .error "OAuth token endpoint returned non-200 status"
      else if tokenResp.accessToken = "" then
        .error "received empty access token"
      else
        let expiresIn := if tokenResp.expiresIn ≤ 0 then 3600 else tokenResp.expiresIn
        .ok (tokenResp.accessToken, ⟨tokenResp.accessToken, now + expiresIn⟩)

/-- The function `GetAccessToken` of `main.go`: return the cached token when it is
non-empty and more than 30 seconds from expiry, otherwise perform the
token exchange. (The write-lock double check re-evaluates the same
condition at the same instant in this sequential model, so it collapses
into the single check.) On success the returned state is the cache the
caller observes. -/
def GetAccessToken (st : OAuthClientState) (now : Int) (net : NetResult) :
    Except String (String × OAuthClientState) :=
  if st.accessToken ≠ "" ∧ now + 30 < st.expiresAt then
    .ok (st.accessToken, st)
  else
    requestNewToken now net

/-- The effective token lifetime `requestNewToken` would store for a
given network outcome: `expires_in` when positive, else the 3600-second
default (0 on outcomes that cannot succeed; unused there). -/
def effectiveExpiresIn : NetResult → Int
  | .response _ (some r) => if r.expiresIn ≤ 0 then 3600 else r.expiresIn
  | _ => 0

/-- The conditions under which `requestNewToken` fails, as the spec
enumerates them: network failure, unparseable body, non-empty `error`
field, non-200 status, or empty `access_token`. -/
def tokenExchangeFails : NetResult → Bool
  | .netFail => true
  | .response _ none => true
  | .response status (some r) =>
    r.error ≠ "" || status ≠ 200 || r.accessToken = ""

/-- Is an `Except` result a success? -/
def exceptIsOk {ε α : Type} : Except ε α → Bool
  | .ok _ => true
  | .error _ => false

/-- The function `sanitizeForLogging` of the gateway-OAuth variant of `main.go`
(the later occurrence): redact bearer strings, `sk-` keys, known
token prefixes, and long strings mentioning secret/client. Go's
`len` counts UTF-8 bytes, modelled by `String.utf8ByteSize`. -/
def sanitizeForLogging (input : String) : String :=
  if goContains (goToLower input) "bearer " then "[REDACTED_BEARER_TOKEN]"
  else if goStartsWith (goToLower input) "sk-" then "[REDACTED_API_KEY]"
  else if ["sk-", "pk-", "api_", "token_", "ey", "access_token"].any
      (fun p => goStartsWith (goToLower input) p) then "[REDACTED_TOKEN]"
  else if input.utf8ByteSize > 20 ∧
      (goContains (goToLower input) "secret" || goContains (goToLower input) "client") then
    "[REDACTED_CREDENTIALS]"
  else input

/-- The function `sanitizeForLogging` of the direct-API-key variant of `main.go`
(the earlier occurrence, lines 66-80): only the bearer and prefix rules,
with a single redaction marker. -/
def sanitizeForLoggingV1 (input : String) : String :=
  if goContains (goToLower input) "bearer " then "[REDACTED_API_KEY]"
  else if goStartsWith (goToLower input) "sk-" then "[REDACTED_API_KEY]"
  else if ["sk-", "pk-", "api_", "token_"].any
      (fun p => goStartsWith (goToLower input) p) then "[REDACTED_API_KEY]"
  else input

/-- The claim's description of a secret-resembling string: contains
`"bearer "` case-insensitively, starts with a known API-key prefix, or
is longer than 20 bytes and mentions secret/client case-insensitively. -/
def resemblesSecret (input : String) : Bool :=
  goContains (goToLower input) "bearer " ||
  ["sk-", "pk-", "api_", "token_", "ey", "access_token"].any
    (fun p => goStartsWith (goToLower input) p) ||
  (decide (input.utf8ByteSize > 20) &&
    (goContains (goToLower input) "secret" || goContains (goToLower input) "client"))

/-- The four fixed redaction markers of the gateway-OAuth variant. -/
def redactionMarkers : List String :=
  ["[REDACTED_BEARER_TOKEN]", "[REDACTED_API_KEY]", "[REDACTED_TOKEN]",
   "[REDACTED_CREDENTIALS]"]


theorem startsWith_left_ne_empty {t : String} (h : goStartsWith t "[" = true) :
    ¬ t = "" := by
  intro he
  rw [he] at h
  exact absurd h (by decide)

theorem stepLine_blank (s : PState) (b : String) (hb : goTrimSpace b = "") :
    stepLine s b = s := by
  unfold stepLine
  simp [hb]

theorem foldl_stepLine_blanks (bs : List String) (s : PState)
    (h : ∀ b ∈ bs, goTrimSpace b = "") : bs.foldl stepLine s = s := by
  induction bs with
  | nil => rfl
  | cons a as ih =>
    rw [List.foldl_cons, stepLine_blank s a (h a (by simp))]
    exact ih fun l hl => h l (by simp [hl])

theorem stepLine_no_header (s : PState) (l : String)
    (hcur : s.currentSection = "") (h : isHeaderLine l = false) :
    stepLine s l = s := by
  unfold isHeaderLine at h
  unfold stepLine
  by_cases ht : goTrimSpace l = ""
  · simp [ht]
  · simp [ht, h, hcur]

theorem foldl_stepLine_no_header (lines : List String) (s : PState)
    (hcur : s.currentSection = "")
    (h : ∀ l ∈ lines, isHeaderLine l = false) :
    lines.foldl stepLine s = s := by
  induction lines with
  | nil => rfl
  | cons a as ih =>
    rw [List.foldl_cons, stepLine_no_header s a hcur (h a (by simp))]
    exact ih fun l hl => h l (by simp [hl])

theorem stepLine_header_eq (s : PState) (l : String)
    (hh : isHeaderLine l = true) (ht : isTitleHeaderLine l = false) :
    stepLine s l =
      { commitOpen s with currentSection := headerPayload l,
                          currentContent := [] } := by
  have hh' : goStartsWith (goTrimSpace l) "[" = true ∧
      goEndsWith (goTrimSpace l) "]" = true := by
    simpa [isHeaderLine] using hh
  have htne : ¬ goTrimSpace l = "" := startsWith_left_ne_empty hh'.1
  have hp : goStartsWith (headerPayload l) "title:" = false := by
    have h2 := ht
    simp [isTitleHeaderLine, hh] at h2
    exact h2
  unfold stepLine
  simp [htne, hh'.1, hh'.2, hp]

theorem commitOpen_title (s : PState) : (commitOpen s).title = s.title := by
  unfold commitOpen
  split <;> rfl

theorem stepLine_title (s : PState) (l : String) :
    (stepLine s l).title =
      if isTitleHeaderLine l then titleFromLine l else s.title := by
  unfold stepLine
  by_cases htt : goTrimSpace l = ""
  · have hT : isTitleHeaderLine l = false := by
      simp [isTitleHeaderLine, isHeaderLine, goStartsWith, htt, startsWithL]
    simp [htt, hT]
  · by_cases hh : (goStartsWith (goTrimSpace l) "[" && goEndsWith (goTrimSpace l) "]") = true
    · by_cases hp : goStartsWith (headerPayload l) "title:" = true
      · have hT : isTitleHeaderLine l = true := by
          simp [isTitleHeaderLine, isHeaderLine, hh, hp]
        simp [htt, hh, hp, hT]
      · have hT : isTitleHeaderLine l = false := by
          simp [isTitleHeaderLine, isHeaderLine]
          intro _ _
          simpa using hp
        simp [htt, hh, hp, hT, commitOpen_title]
    · have hT : isTitleHeaderLine l = false := by
        simp [isTitleHeaderLine, isHeaderLine]
        intro h1 h2
        exact absurd (by simp [h1, h2] : (goStartsWith (goTrimSpace l) "[" && goEndsWith (goTrimSpace l) "]") = true) hh
      simp [htt, hh, hT]
      split <;> rfl

theorem foldl_title_no_title (lines : List String) (s : PState)
    (h : ∀ l ∈ lines, isTitleHeaderLine l = false) :
    (lines.foldl stepLine s).title = s.title := by
  induction lines generalizing s with
  | nil => rfl
  | cons a as ih =>
    rw [List.foldl_cons, ih _ fun l hl => h l (by simp [hl]), stepLine_title]
    simp [h a (by simp)]

theorem commitOpen_empty_content (s : PState) (h : s.currentContent = []) :
    commitOpen s = s := by
  unfold commitOpen
  simp [h]

theorem stepLine_header_header (s : PState) (h1 h2 : String)
    (hh1 : isHeaderLine h1 = true) (ht1 : isTitleHeaderLine h1 = false)
    (hh2 : isHeaderLine h2 = true) (ht2 : isTitleHeaderLine h2 = false) :
    stepLine (stepLine s h1) h2 = stepLine s h2 := by
  rw [stepLine_header_eq s h1 hh1 ht1, stepLine_header_eq _ h2 hh2 ht2,
      stepLine_header_eq s h2 hh2 ht2]
  rw [commitOpen_empty_content _ rfl]

theorem requestNewToken_ok_shape (now : Int) (net : NetResult)
    (t : String) (st' : OAuthClientState)
    (hok : requestNewToken now net = .ok (t, st')) :
    t ≠ "" ∧ st'.accessToken = t ∧
      st'.expiresAt = now + effectiveExpiresIn net := by
  cases net with
  | netFail => exact absurd hok (by simp [requestNewToken])
  | response status body =>
    cases body with
    | none => exact absurd hok (by simp [requestNewToken])
    | some r =>
      by_cases he : r.error = ""
      · by_cases hs : status = 200
        · by_cases ha : r.accessToken = ""
          · exact absurd hok (by simp [requestNewToken, he, hs, ha])
          · have : t = r.accessToken ∧ st' = ⟨r.accessToken, now + (if r.expiresIn ≤ 0 then 3600 else r.expiresIn)⟩ := by
              simp [requestNewToken, he, hs, ha] at hok
              exact ⟨hok.1.symm, hok.2.symm⟩
            rcases this with ⟨h1, h2⟩
            subst h1 h2
            exact ⟨ha, rfl, by simp [effectiveExpiresIn]⟩
        · exact absurd hok (by simp [requestNewToken, he, hs])
      · exact absurd hok (by simp [requestNewToken, he])

theorem requestNewToken_isOk_iff (now : Int) (net : NetResult) :
    exceptIsOk (requestNewToken now net) = !tokenExchangeFails net := by
  cases net with
  | netFail => rfl
  | response status body =>
    cases body with
    | none => rfl
    | some r =>
      by_cases he : r.error = "" <;> by_cases hs : status = 200 <;>
        by_cases ha : r.accessToken = "" <;>
        simp [requestNewToken, tokenExchangeFails, exceptIsOk, he, hs, ha]

/-- C1 (counterexample): on the spec's own example the returned title is
not "Love Song" — the parser lowercases the header before extracting it. -/
theorem parseLyrics_title_not_capitalized :
    (parseLyrics "[Title: Love Song]\n[Verse 1]\nline a\nline b\n[Chorus]\nline c").title
      ≠ "Love Song" := by decide

/-- C1 (amended): parsing the example yields the lowercased title
"love song" and the sections "verse 1" → "line a\nline b",
"chorus" → "line c". -/
theorem parseLyrics_love_song_example :
    parseLyrics "[Title: Love Song]\n[Verse 1]\nline a\nline b\n[Chorus]\nline c"
      = ⟨"love song", [("verse 1", "line a\nline b"), ("chorus", "line c")]⟩ := by
  decide

/-- C4: a non-title header immediately followed (up to blank lines) by
another non-title header contributes nothing to the scan — the fold over
the lines with the first header equals the fold without it — and on the
concrete input "[Verse 1]\n[Chorus]\ntext" only a "chorus" entry results. -/
theorem parseLyrics_consecutive_headers
    (pre bs rest : List String) (h1 h2 : String)
    (hh1 : isHeaderLine h1 = true) (ht1 : isTitleHeaderLine h1 = false)
    (hh2 : isHeaderLine h2 = true) (ht2 : isTitleHeaderLine h2 = false)
    (hbs : ∀ b ∈ bs, goTrimSpace b = "") :
    (pre ++ h1 :: (bs ++ h2 :: rest)).foldl stepLine initState
        = (pre ++ h2 :: rest).foldl stepLine initState
      ∧ parseLyrics "[Verse 1]\n[Chorus]\ntext"
        = ⟨"Untitled Song", [("chorus", "text")]⟩ := by
  constructor
  · rw [List.foldl_append, List.foldl_append, List.foldl_cons, List.foldl_cons,
        List.foldl_append, foldl_stepLine_blanks bs _ hbs, List.foldl_cons,
        stepLine_header_header _ h1 h2 hh1 ht1 hh2 ht2]
  · decide

theorem parseLyrics_consecutive_headers_witness :
    (([] ++ "[Verse 1]" :: ([] ++ "[Chorus]" :: ["text"])).foldl stepLine initState
        = ([] ++ "[Chorus]" :: ["text"]).foldl stepLine initState)
      ∧ parseLyrics "[Verse 1]\n[Chorus]\ntext"
        = ⟨"Untitled Song", [("chorus", "text")]⟩ :=
  parseLyrics_consecutive_headers [] [] ["text"] "[Verse 1]" "[Chorus]"
    (by decide) (by decide) (by decide) (by decide) (by simp)

/-- C5: when the scan commits nothing the whole raw text is stored under
the default key "verse1"; in particular any text with no header line at
all parses to the default title and that single fallback section. -/
theorem parseLyrics_no_header_fallback (text : String) :
    ((commitOpen ((goSplitNl text).foldl stepLine initState)).Structure = [] →
      (parseLyrics text).Structure = [("verse1", text)])
    ∧ ((∀ l ∈ goSplitNl text, isHeaderLine l = false) →
      parseLyrics text = ⟨"Untitled Song", [("verse1", text)]⟩) := by
  constructor
  · intro h
    unfold parseLyrics
    simp [h]
  · intro h
    unfold parseLyrics
    rw [foldl_stepLine_no_header _ initState rfl h]
    rfl

theorem parseLyrics_no_header_fallback_witness :
    parseLyrics "hello\nworld" = ⟨"Untitled Song", [("verse1", "hello\nworld")]⟩ :=
  (parseLyrics_no_header_fallback "hello\nworld").2 (by decide)

/-- C9: the sections mapping returned by parseLyrics is never empty. -/
theorem parseLyrics_structure_nonempty (text : String) :
    (parseLyrics text).Structure ≠ [] := by
  unfold parseLyrics
  cases h : (commitOpen ((goSplitNl text).foldl stepLine initState)).Structure with
  | nil => simp [h]
  | cons a as => simp [h]

/-- C10: the title returned by parseLyrics is the one from the last title
header of the text; every earlier title header is overwritten. -/
theorem parseLyrics_last_title_wins (text : String) (pre post : List String)
    (h : String) (hsplit : goSplitNl text = pre ++ h :: post)
    (hh : isTitleHeaderLine h = true)
    (hpost : ∀ l ∈ post, isTitleHeaderLine l = false) :
    (parseLyrics text).title = titleFromLine h := by
  unfold parseLyrics
  rw [hsplit]
  show (commitOpen ((pre ++ h :: post).foldl stepLine initState)).title = _
  rw [commitOpen_title, List.foldl_append, List.foldl_cons,
      foldl_title_no_title post _ hpost, stepLine_title]
  simp [hh]

theorem parseLyrics_last_title_wins_witness :
    (parseLyrics "[Title: A]\n[Title: B]").title = titleFromLine "[Title: B]" :=
  parseLyrics_last_title_wins "[Title: A]\n[Title: B]" ["[Title: A]"] [] "[Title: B]"
    (by decide) (by decide) (by simp)

/-- C2 (counterexample): with expires_in = 60 the stored expiry is
now + 60, not now + max(60, 3600). -/
theorem requestNewToken_default_counterexample :
    requestNewToken 0 (.response 200 (some ⟨"tok", "bearer", 60, "", "", ""⟩))
      = .ok ("tok", ⟨"tok", 60⟩) ∧ (60 : Int) ≠ 0 + max 60 3600 := by
  constructor
  · rfl
  · decide

/-- C2 (amended): a successful exchange stores
expiresAt = now + expiresIn when expiresIn is positive, and
expiresAt = now + 3600 only when expiresIn ≤ 0. -/
theorem requestNewToken_expiry (now status : Int) (r : OAuthTokenResponse)
    (t : String) (st' : OAuthClientState)
    (hok : requestNewToken now (.response status (some r)) = .ok (t, st')) :
    st'.expiresAt = if r.expiresIn ≤ 0 then now + 3600 else now + r.expiresIn := by
  have h := (requestNewToken_ok_shape now _ t st' hok).2.2
  rw [h]
  by_cases hc : r.expiresIn ≤ 0 <;> simp [effectiveExpiresIn, hc]

theorem requestNewToken_expiry_witness :
    (⟨"tok", 60⟩ : OAuthClientState).expiresAt
      = if (60 : Int) ≤ 0 then (0 : Int) + 3600 else (0 : Int) + 60 :=
  requestNewToken_expiry 0 200 ⟨"tok", "bearer", 60, "", "", ""⟩ "tok" ⟨"tok", 60⟩
    (by rfl)

/-- C3 (counterexample): a freshly exchanged token with expires_in = 5 is
returned by GetAccessToken although it is within 30 seconds of expiry. -/
theorem GetAccessToken_buffer_counterexample :
    GetAccessToken ⟨"", 0⟩ 1000 (.response 200 (some ⟨"t", "bearer", 5, "", "", ""⟩))
      = .ok ("t", ⟨"t", 1005⟩) ∧ ¬ (1000 + 30 < (1005 : Int)) := by
  constructor
  · rfl
  · decide

/-- C3 (amended): a token returned by GetAccessToken is more than
30 seconds from its stored expiry exactly when it was served from the
cache, or the exchange's effective expires_in (3600 when ≤ 0) exceeds
30 seconds; the slow path alone does not guarantee the buffer. -/
theorem GetAccessToken_expiry_buffer (st : OAuthClientState) (now : Int)
    (net : NetResult) (t : String) (st' : OAuthClientState)
    (hok : GetAccessToken st now net = .ok (t, st')) :
    (now + 30 < st'.expiresAt ↔
      (st.accessToken ≠ "" ∧ now + 30 < st.expiresAt) ∨
        30 < effectiveExpiresIn net) := by
  unfold GetAccessToken at hok
  by_cases hc : st.accessToken ≠ "" ∧ now + 30 < st.expiresAt
  · rw [if_pos hc] at hok
    have hst : st' = st := by
      cases hok
      rfl
    subst hst
    simp [hc]
  · rw [if_neg hc] at hok
    have h := (requestNewToken_ok_shape now net t st' hok).2.2
    rw [h]
    constructor
    · intro hlt
      right
      omega
    · intro hor
      rcases hor with h1 | h2
      · exact absurd h1 hc
      · omega

theorem GetAccessToken_expiry_buffer_witness :
    (0 + 30 < (⟨"tok", 100⟩ : OAuthClientState).expiresAt ↔
      (("tok" : String) ≠ "" ∧ 0 + 30 < (⟨"tok", 100⟩ : OAuthClientState).expiresAt) ∨
        30 < effectiveExpiresIn .netFail) :=
  GetAccessToken_expiry_buffer ⟨"tok", 100⟩ 0 .netFail "tok" ⟨"tok", 100⟩ (by rfl)

/-- C6: after the structure-default step, chorus is always true (a
submitted false is coerced), verses is 2 exactly when it was 0, and
bridge is untouched. -/
theorem applyStructureDefaults_spec (s : SongStructure) :
    (applyStructureDefaults s).chorus = true ∧
    (applyStructureDefaults s).verses = (if s.verses = 0 then 2 else s.verses) ∧
    (applyStructureDefaults s).bridge = s.bridge := by
  unfold applyStructureDefaults
  by_cases hv : s.verses = 0 <;> by_cases hc : s.chorus <;> simp [hv, hc]

/-- C7: the token exchange fails exactly on network failure, unparseable
body, non-empty error field, non-200 status, or empty access_token; on
success the returned token is non-empty and is the token stored. -/
theorem requestNewToken_failure_characterization (now : Int) (net : NetResult) :
    (exceptIsOk (requestNewToken now net) = !tokenExchangeFails net) ∧
    (∀ t st', requestNewToken now net = .ok (t, st') →
      t ≠ "" ∧ st'.accessToken = t) := by
  refine ⟨requestNewToken_isOk_iff now net, fun t st' hok => ?_⟩
  have h := requestNewToken_ok_shape now net t st' hok
  exact ⟨h.1, h.2.1⟩

theorem requestNewToken_failure_characterization_witness :
    ("tok" : String) ≠ "" ∧ (⟨"tok", 1060⟩ : OAuthClientState).accessToken = "tok" :=
  (requestNewToken_failure_characterization 1000
      (.response 200 (some ⟨"tok", "bearer", 60, "", "", ""⟩))).2
    "tok" ⟨"tok", 1060⟩ (by rfl)

/-- C8 (counterexample): the direct-API-key variant of sanitizeForLogging
returns a 24-byte string containing "client" unchanged. -/
theorem sanitizeForLoggingV1_misses_credentials :
    resemblesSecret "clientclientclientclient" = true ∧
    sanitizeForLoggingV1 "clientclientclientclient" = "clientclientclientclient" := by
  constructor
  · decide
  · rfl

/-- C8 (amended): the gateway-OAuth variant of sanitizeForLogging maps
every secret-resembling string to one of the fixed redaction markers. -/
theorem sanitizeForLogging_redacts_secrets (input : String)
    (h : resemblesSecret input = true) :
    sanitizeForLogging input ∈ redactionMarkers := by
  unfold resemblesSecret at h
  unfold sanitizeForLogging redactionMarkers
  by_cases h1 : goContains (goToLower input) "bearer " = true
  · simp [h1]
  · by_cases h2 : goStartsWith (goToLower input) "sk-" = true
    · simp [h1, h2]
    · by_cases h3 : (["sk-", "pk-", "api_", "token_", "ey", "access_token"].any
          (fun p => goStartsWith (goToLower input) p)) = true
      · simp [h1, h2, h3]
      · have h4 : input.utf8ByteSize > 20 ∧
            (goContains (goToLower input) "secret" ||
              goContains (goToLower input) "client") = true := by
          simp [h1, h3] at h
          exact ⟨h.1, by simpa using h.2⟩
        simp [h1, h2, h3, h4]

theorem sanitizeForLogging_redacts_secrets_witness :
    sanitizeForLogging "Bearer abc123" ∈ redactionMarkers :=
  sanitizeForLogging_redacts_secrets "Bearer abc123" (by decide)
